import Mathlib

/-!
Verification development for the borealis-banhammer abuse-detection engine.

The definitions below are a shallow embedding of the Rust sources:
`src/buckets.rs` (leaky-bucket store and retention priority queue),
`src/de/relayer.rs` (error-string decoding), and `src/banhammer.rs`
(the Banhammer engine: `check_ban`, `process_bucket`, `tick`,
`ban_progression`, `read_input`).

Modelling conventions:
- machine integers (`u32`, `u64`, `u128`) become `Nat`; where Rust
  arithmetic wraps, the embedding takes the result modulo `2 ^ 32`,
  `2 ^ 64` or `2 ^ 128` explicitly;
- `HashMap` becomes an association list observed through `alFind`;
  `entry(..).or_insert(..)` followed by an assignment becomes
  `alInsert` (replace-or-append), and in-place mutation of an
  existing-or-default entry becomes `alUpsert`;
- a Rust panic (`unimplemented!`, `todo!`, `expect`) is modelled by
  returning `none` from an `Option`-valued function; operations that
  cannot panic stay total;
- wall-clock reads (`SystemTime::now`, `Instant::elapsed`) become
  explicit `now` / `elapsed` parameters, since the only use the code
  makes of the clock is the value it returns.
-/

namespace Borealis

/-- Wrap-around modulus for Rust `u32` arithmetic. -/
def w32 : Nat := 2 ^ 32

/-- Wrap-around modulus for Rust `u64` arithmetic. -/
def w64 : Nat := 2 ^ 64

/-- Wrap-around modulus for Rust `u128` arithmetic. -/
def w128 : Nat := 2 ^ 128

/-- Opaque model of `std::net::IpAddr`: the engine only ever compares,
hashes and stores client addresses, so the payload is an abstract `Nat`. -/
structure IpAddr where
  val : Nat
deriving DecidableEq, Repr

/-- Opaque model of `ethereum_types::Address` (20-byte EVM address). -/
structure EthAddress where
  val : Nat
deriving DecidableEq, Repr

/-- Model of `de::Token` (`pub struct Token(String)`). -/
structure Token where
  val : String
deriving DecidableEq, Repr

/-- `buckets.rs`: `enum BucketIdentity { IP, Address, Token }`. -/
inductive BucketIdentity where
  | IP
  | Address
  | Token
deriving DecidableEq, Repr

/-- `buckets.rs`: `enum BucketNameValue { IP(IpAddr), Address(Address), Token(Token) }`. -/
inductive BucketNameValue where
  | IP (a : IpAddr)
  | Address (a : EthAddress)
  | Token (t : Token)
deriving DecidableEq, Repr

/-- `buckets.rs`: `enum BucketErrorKind`. -/
inductive BucketErrorKind where
  | IncorrectNonce
  | MaxGas
  | Reverts
  | UsedExcessiveGas
  | Custom (tag : String)
deriving DecidableEq, Repr

/-- `buckets.rs`: `struct BucketName { kind, value, error }`. -/
structure BucketName where
  kind : BucketIdentity
  value : BucketNameValue
  error : BucketErrorKind
deriving DecidableEq, Repr

/-- `BucketName::new`. -/
def BucketName.new (kind : BucketIdentity) (value : BucketNameValue)
    (error : BucketErrorKind) : BucketName :=
  ⟨kind, value, error⟩

/-- `buckets.rs`: `enum BucketValue`; payloads are `u32` except
`UsedExcessiveGas(u128)`, all modelled as `Nat`. -/
inductive BucketValue where
  | IncorrectNonce (v : Nat)
  | MaxGas (v : Nat)
  | Reverts (v : Nat)
  | UsedExcessiveGas (v : Nat)
  | Custom (v : Nat)
deriving DecidableEq, Repr

namespace BucketValue

/-- Discriminant of a `BucketValue`, in declaration order — the first
component compared by Rust's derived `Ord`. -/
def tag : BucketValue → Nat
  | IncorrectNonce _ => 0
  | MaxGas _ => 1
  | Reverts _ => 2
  | UsedExcessiveGas _ => 3
  | Custom _ => 4

/-- Numeric payload of a `BucketValue`. -/
def payload : BucketValue → Nat
  | IncorrectNonce v => v
  | MaxGas v => v
  | Reverts v => v
  | UsedExcessiveGas v => v
  | Custom v => v

/-- Rust's derived `Ord` on `BucketValue`: variants compare by
declaration order first, then by payload. -/
def blt (a b : BucketValue) : Bool :=
  a.tag < b.tag || (a.tag = b.tag && a.payload < b.payload)

/-- `a > b` under the derived `Ord` (used by `process_bucket`). -/
def bgt (a b : BucketValue) : Bool :=
  blt b a

/-- `impl Add for BucketValue`: adds payloads of equal variants
(wrapping at the payload width); every cross-variant combination and
the `Custom` variant execute `unimplemented!()` / `todo!()`, modelled
as `none`. -/
def add : BucketValue → BucketValue → Option BucketValue
  | IncorrectNonce a, IncorrectNonce b => some (IncorrectNonce ((a + b) % w32))
  | MaxGas a, MaxGas b => some (MaxGas ((a + b) % w32))
  | UsedExcessiveGas a, UsedExcessiveGas b => some (UsedExcessiveGas ((a + b) % w128))
  | Reverts a, Reverts b => some (Reverts ((a + b) % w32))
  | _, _ => none

/-- `impl Sub for BucketValue`: saturating subtraction of payloads of
equal variants (`if val_l > val_r { val_l - val_r } else { 0 }`);
cross-variant combinations and `Custom` panic, modelled as `none`. -/
def sub : BucketValue → BucketValue → Option BucketValue
  | IncorrectNonce a, IncorrectNonce b => some (IncorrectNonce (if a > b then a - b else 0))
  | MaxGas a, MaxGas b => some (MaxGas (if a > b then a - b else 0))
  | UsedExcessiveGas a, UsedExcessiveGas b => some (UsedExcessiveGas (if a > b then a - b else 0))
  | Reverts a, Reverts b => some (Reverts (if a > b then a - b else 0))
  | _, _ => none

end BucketValue

/-- Discriminant of a `BucketErrorKind`, aligned with `BucketValue.tag`. -/
def BucketErrorKind.tag : BucketErrorKind → Nat
  | .IncorrectNonce => 0
  | .MaxGas => 1
  | .Reverts => 2
  | .UsedExcessiveGas => 3
  | .Custom _ => 4

section AssocList

variable {α : Type} {β : Type} [DecidableEq α]

/-- First value stored under a key in an association list (models
`HashMap::get`). -/
def alFind : List (α × β) → α → Option β
  | [], _ => none
  | (k, v) :: rest, a => if k = a then some v else alFind rest a

/-- Replace the value under a key, or append the pair if the key is
absent (models `*map.entry(k).or_insert(v0) = v`). -/
def alInsert : List (α × β) → α → β → List (α × β)
  | [], k, v => [(k, v)]
  | (k2, v2) :: rest, k, v =>
    if k2 = k then (k2, v) :: rest else (k2, v2) :: alInsert rest k v

/-- Mutate the entry under a key through `f`, materialising it from
the default `d` first when absent (models
`map.entry(k).or_insert_with(default)` followed by mutation). -/
def alUpsert : List (α × β) → α → β → (β → β) → List (α × β)
  | [], k, d, f => [(k, f d)]
  | (k2, v2) :: rest, k, d, f =>
    if k2 = k then (k2, f v2) :: rest else (k2, v2) :: alUpsert rest k d f

/-- Remove the entry under a key (models `HashMap::remove`). -/
def alRemove : List (α × β) → α → List (α × β)
  | [], _ => []
  | (k2, v2) :: rest, k =>
    if k2 = k then rest else (k2, v2) :: alRemove rest k

theorem alFind_alInsert_ne (l : List (α × β)) (k k2 : α) (v : β) (h : k ≠ k2) :
    alFind (alInsert l k v) k2 = alFind l k2 := by
  induction l with
  | nil => simp [alInsert, alFind, h]
  | cons e rest ih =>
    obtain ⟨ke, ve⟩ := e
    by_cases hk : ke = k
    · subst hk
      simp [alInsert, alFind, h]
    · simp only [alInsert, if_neg hk]
      by_cases hk2 : ke = k2
      · simp [alFind, hk2]
      · simp [alFind, hk2, ih]

theorem alFind_alInsert_self (l : List (α × β)) (k : α) (v : β) :
    alFind (alInsert l k v) k = some v := by
  induction l with
  | nil => simp [alInsert, alFind]
  | cons e rest ih =>
    obtain ⟨ke, ve⟩ := e
    by_cases hk : ke = k
    · subst hk
      simp [alInsert, alFind]
    · simp [alInsert, alFind, hk, ih]

theorem alFind_map_value (l : List (α × β)) (f : β → β) (k : α) :
    alFind (l.map fun kv => (kv.1, f kv.2)) k = (alFind l k).map f := by
  induction l with
  | nil => simp [alFind]
  | cons e rest ih =>
    obtain ⟨ke, ve⟩ := e
    by_cases hk : ke = k
    · simp [alFind, hk]
    · simp [alFind, hk, ih]

end AssocList

/-- `buckets.rs`: `struct LeakyBucket(HashMap<BucketName, BucketValue>)`. -/
def LeakyBucket : Type := List (BucketName × BucketValue)

instance : DecidableEq LeakyBucket := by
  unfold LeakyBucket
  infer_instance

instance : Repr LeakyBucket := by
  unfold LeakyBucket
  infer_instance

/-- `LeakyBucket::new`. -/
def LeakyBucket.new : LeakyBucket := []

namespace LeakyBucket

/-- `LeakyBucket::get_fill`: absent key returns the increment as-is;
otherwise the increment variant is checked against the key's error
kind (mismatch executes `todo!()`, modelled `none`) and the stored
value is added to the increment via `impl Add` (which itself panics
on variant mismatch). The receiver is `&self`: the store is never
mutated. -/
def get_fill (store : LeakyBucket) (key : BucketName) (value : BucketValue) :
    Option BucketValue :=
  match alFind store key with
  | none => some value
  | some old =>
    match key.error with
    | .IncorrectNonce =>
      match value with
      | .IncorrectNonce _ => old.add value
      | _ => none
    | .MaxGas =>
      match value with
      | .MaxGas _ => old.add value
      | _ => none
    | .UsedExcessiveGas =>
      match value with
      | .UsedExcessiveGas _ => old.add value
      | _ => none
    | .Reverts =>
      match value with
      | .Reverts _ => old.add value
      | _ => none
    | .Custom _ => none

/-- `LeakyBucket::fill`: store `value` under `key`, creating or
overwriting the entry. -/
def fill (store : LeakyBucket) (key : BucketName) (value : BucketValue) :
    LeakyBucket :=
  alInsert store key value

/-- `LeakyBucket::decrease`: no-op on an absent key; otherwise
subtract `value` from the stored value via `impl Sub` after the same
variant gate as `get_fill`, and write the result back. -/
def decrease (store : LeakyBucket) (key : BucketName) (value : BucketValue) :
    Option LeakyBucket :=
  match alFind store key with
  | none => some store
  | some old =>
    let newValue : Option BucketValue :=
      match key.error with
      | .IncorrectNonce =>
        match value with
        | .IncorrectNonce _ => old.sub value
        | _ => none
      | .MaxGas =>
        match value with
        | .MaxGas _ => old.sub value
        | _ => none
      | .UsedExcessiveGas =>
        match value with
        | .UsedExcessiveGas _ => old.sub value
        | _ => none
      | .Reverts =>
        match value with
        | .Reverts _ => old.sub value
        | _ => none
      | .Custom _ => none
    newValue.map fun nv => alInsert store key nv

/-- `LeakyBucket::leaky` simply delegates to `decrease`. -/
def leaky (store : LeakyBucket) (key : BucketName) (value : BucketValue) :
    Option LeakyBucket :=
  decrease store key value

end LeakyBucket

/-- `buckets.rs`: `BucketPriorityQueue(PriorityQueue<BucketName, u128>)`,
a max-priority queue keyed by bucket name with millisecond timestamps
as priorities. -/
structure BucketPriorityQueue where
  entries : List (BucketName × Nat)
deriving DecidableEq, Repr

namespace BucketPriorityQueue

/-- Entry with the greatest priority, first-wins on ties (the crate
leaves tie order unspecified). -/
def peekAux : List (BucketName × Nat) → Option (BucketName × Nat)
  | [] => none
  | e :: rest =>
    match peekAux rest with
    | none => some e
    | some m => if e.2 ≥ m.2 then some e else some m

/-- `BucketPriorityQueue::peek`: the couple (item, priority) with the
greatest priority, or `none` when empty. -/
def peek (q : BucketPriorityQueue) : Option (BucketName × Nat) :=
  peekAux q.entries

/-- `BucketPriorityQueue::pop`: remove and return the entry with the
greatest priority. -/
def pop (q : BucketPriorityQueue) : Option ((BucketName × Nat) × BucketPriorityQueue) :=
  match peek q with
  | none => none
  | some e => some (e, ⟨alRemove q.entries e.1⟩)

/-- `BucketPriorityQueue::push` with the clock value passed explicitly. -/
def push (q : BucketPriorityQueue) (name : BucketName) (now : Nat) :
    BucketPriorityQueue :=
  ⟨alInsert q.entries name now⟩

theorem peekAux_eq_none (l : List (BucketName × Nat)) (h : peekAux l = none) :
    l = [] := by
  cases l with
  | nil => rfl
  | cons hd rest =>
    exfalso
    rw [peekAux] at h
    cases h2 : peekAux rest with
    | none => rw [h2] at h; exact Option.noConfusion h
    | some m =>
      rw [h2] at h
      have h3 : (if hd.2 ≥ m.2 then some hd else some m) = none := h
      by_cases hge : hd.2 ≥ m.2
      · rw [if_pos hge] at h3; exact Option.noConfusion h3
      · rw [if_neg hge] at h3; exact Option.noConfusion h3

theorem peekAux_mem_and_max (l : List (BucketName × Nat)) (e : BucketName × Nat)
    (h : peekAux l = some e) : e ∈ l ∧ ∀ x ∈ l, x.2 ≤ e.2 := by
  induction l generalizing e with
  | nil => exact Option.noConfusion h
  | cons hd rest ih =>
    rw [peekAux] at h
    cases hrest : peekAux rest with
    | none =>
      rw [hrest] at h
      have hnil := peekAux_eq_none rest hrest
      subst hnil
      have h2 : hd = e := Option.some.inj h
      subst h2
      exact ⟨List.mem_cons_self _ _, by intro x hx; simp at hx; subst hx; exact le_refl _⟩
    | some m =>
      rw [hrest] at h
      have h3 : (if hd.2 ≥ m.2 then some hd else some m) = some e := h
      obtain ⟨hmem, hmax⟩ := ih m hrest
      by_cases hge : hd.2 ≥ m.2
      · rw [if_pos hge] at h3
        have h2 : hd = e := Option.some.inj h3
        subst h2
        refine ⟨List.mem_cons_self _ _, ?_⟩
        intro x hx
        rcases List.mem_cons.mp hx with hx | hx
        · subst hx; exact le_refl _
        · exact le_trans (hmax x hx) hge
      · rw [if_neg hge] at h3
        have h2 : m = e := Option.some.inj h3
        subst h2
        refine ⟨List.mem_cons_of_mem _ hmem, ?_⟩
        intro x hx
        rcases List.mem_cons.mp hx with hx | hx
        · subst hx
          exact le_of_not_le hge
        · exact hmax x hx

end BucketPriorityQueue

/-- Prefix test on character lists (helper for substring matching). -/
def chPre : List Char → List Char → Bool
  | [], _ => true
  | _ :: _, [] => false
  | p :: ps, c :: cs => p = c && chPre ps cs

/-- Substring test on character lists. -/
def chSub : List Char → List Char → Bool
  | p, [] => p.isEmpty
  | p, c :: cs => chPre p (c :: cs) || chSub p cs

/-- Model of Rust `str::contains` for a literal pattern. -/
def strContains (s pat : String) : Bool :=
  chSub pat.toList s.toList

/-- `de/relayer.rs`: the substring identifying the relayer's own issue
tracker (`RELAYER_ERR_PATTERN`). -/
def RELAYER_ERR_PATTERN : String :=
  "httpsgithub.comaurora-is-nearaurora-relayerissues"

/-- `de/relayer.rs`: `enum TransactionError`. -/
inductive TransactionError where
  | ErrIncorrectNonce
  | MaxGas
  | InvalidECDSA
  | Revert (msg : String)
  | Relayer (msg : String)
deriving DecidableEq, Repr

/-- `de/relayer.rs`: the `visit_str` body of
`impl Deserialize for TransactionError` — the standalone decoder,
which does map `ERR_INVALID_ECDSA_SIGNATURE` to `InvalidECDSA`. -/
def TransactionError.deserialize (err : String) : TransactionError :=
  if strContains err RELAYER_ERR_PATTERN then .Relayer err
  else if err = "ERR_INCORRECT_NONCE" then .ErrIncorrectNonce
  else if err = "Exceeded the maximum amount of gas allowed to burn per contract." then .MaxGas
  else if err = "ERR_INVALID_ECDSA_SIGNATURE" then .InvalidECDSA
  else .Revert err

/-- `de/relayer.rs`: the `visit_str` body of `deserialize_error`, the
decoder wired to `RelayerMessage.error` via
`#[serde(deserialize_with = "deserialize_error")]`. Empty string means
no error. Note: unlike `TransactionError.deserialize`, it has no case
for `ERR_INVALID_ECDSA_SIGNATURE`. -/
def deserialize_error (err : String) : Option TransactionError :=
  if err = "" then none
  else if strContains err "httpsgithub.comaurora-is-nearaurora-relayerissues" then
    some (.Relayer err)
  else if err = "ERR_INCORRECT_NONCE" then some .ErrIncorrectNonce
  else if err = "Exceeded the maximum amount of gas allowed to burn per contract." then
    some .MaxGas
  else some (.Revert err)

/-- `banhammer.rs`: `const NEAR_GAS_COUNTER: u128 = 202651902028573`. -/
def NEAR_GAS_COUNTER : Nat := 202651902028573

/-- `banhammer.rs`: `struct BanProgress` (per-user, per-timeframe
misbehaviour counters). -/
structure BanProgress where
  incorrect_nonce : Nat
  max_gas : Nat
  revert : List String
  excessive_gas : Nat
deriving DecidableEq, Repr

/-- `BanProgress::default` / `BanProgress::reset` target value. -/
def BanProgress.init : BanProgress :=
  ⟨0, 0, [], 0⟩

/-- `banhammer.rs`: `enum BanReason`. -/
inductive BanReason where
  | TooManyIncorrectNonce
  | TooManyMaxGas
  | TooManyReverts
  | UsedExcessiveGas
  | Custom (tag : String)
deriving DecidableEq, Repr

/-- `banhammer.rs`: `struct UserClient`. -/
structure UserClient where
  tokens : List Token
  addresses : List EthAddress
  transaction_count : Nat
  ban_progress : BanProgress
  banned : Option BanReason
  updated : Nat
deriving DecidableEq, Repr

/-- `UserClient::default`. -/
def UserClient.init : UserClient :=
  ⟨[], [], 0, BanProgress.init, none, 0⟩

/-- `banhammer.rs`: `struct UserAddress`. -/
structure UserAddress where
  clients : List IpAddr
  tokens : List Token
  transaction_count : Nat
  ban_progress : BanProgress
  banned : Option BanReason
  updated : Nat
deriving DecidableEq, Repr

/-- `UserAddress::default`. -/
def UserAddress.init : UserAddress :=
  ⟨[], [], 0, BanProgress.init, none, 0⟩

/-- `banhammer.rs`: `struct UserToken`. -/
structure UserToken where
  clients : List IpAddr
  addresses : List EthAddress
  transaction_count : Nat
  ban_progress : BanProgress
  banned : Option BanReason
  updated : Nat
deriving DecidableEq, Repr

/-- `UserToken::default`. -/
def UserToken.init : UserToken :=
  ⟨[], [], 0, BanProgress.init, none, 0⟩

/-- `banhammer.rs`: `struct BanList`. -/
structure BanList where
  clients : List (IpAddr × UserClient)
  tokens : List (Token × UserToken)
  addresses : List (EthAddress × UserAddress)
deriving DecidableEq, Repr

/-- `BanList::default`. -/
def BanList.init : BanList :=
  ⟨[], [], []⟩

/-- `banhammer.rs`: `struct Config` (engine thresholds, all `u32` in
the source; `timeframe` is a `Duration`, modelled as a `Nat` tick
count in the same unit as `tick`'s elapsed argument). -/
structure Config where
  timeframe : Nat
  incorrect_nonce_threshold : Nat
  max_gas_threshold : Nat
  revert_threshold : Nat
  excessive_gas_threshold : Nat
  token_multiplier : Nat
deriving DecidableEq, Repr

/-- `banhammer.rs`: `struct UserDetails` (the per-message principal
triple extracted from the relayer message). -/
structure UserDetails where
  client : IpAddr
  address : EthAddress
  token : Option Token
deriving DecidableEq, Repr

/-- The engine-relevant fields of `de::RelayerMessage`: `client`,
`params.from`, `token`, `error` (the remaining wire fields are parsed
but never consulted by the engine). -/
structure RelayerMessage where
  client : IpAddr
  fromAddr : EthAddress
  token : Option Token
  error : Option TransactionError
deriving DecidableEq, Repr

/-- `banhammer.rs`: `struct Banhammer` (the engine state). -/
structure Banhammer where
  next_check : Nat
  user_clients : List (IpAddr × UserClient)
  user_addresses : List (EthAddress × UserAddress)
  user_tokens : List (Token × UserToken)
  ban_list : BanList
  config : Config
  leaky_buckets : LeakyBucket
deriving DecidableEq, Repr

/-- `Banhammer::new`. -/
def Banhammer.new (config : Config) : Banhammer :=
  ⟨config.timeframe, [], [], [], BanList.init, config, LeakyBucket.new⟩

/-- The `near_gas_threshold` block of `check_ban`:
`excessive_gas_threshold as u128 * 10^12`, additionally multiplied by
`token_multiplier as u128` when a token is present (`u128`
multiplication, wrapping at `2 ^ 128`). -/
def nearGasThreshold (config : Config) (tokenPresent : Bool) : Nat :=
  if tokenPresent then
    config.excessive_gas_threshold * 1000000000000 % w128 * config.token_multiplier % w128
  else
    config.excessive_gas_threshold * 1000000000000 % w128

/-- The per-class `threshold` blocks of `check_ban` and
`process_bucket`: the configured `u32` threshold, multiplied by
`token_multiplier` (wrapping `u32` multiplication) when a token is
present. -/
def scalarThreshold (threshold multiplier : Nat) (tokenPresent : Bool) : Nat :=
  if tokenPresent then threshold * multiplier % w32 else threshold

/-- `banhammer.rs`: `fn check_ban`. Accumulates `near_gas` into the
excessive-gas counter and returns early with `UsedExcessiveGas` when
the accumulator strictly exceeds its threshold; otherwise dispatches
on the error variant, incrementing the matching counter and comparing
it against its (possibly token-scaled) threshold with `>=`. Returns
the optional ban reason together with the mutated progress. -/
def check_ban (ban_progress : BanProgress) (config : Config)
    (token : Option Token) (maybe_error : Option TransactionError)
    (near_gas : Nat) : Option BanReason × BanProgress :=
  let near_gas_threshold := nearGasThreshold config token.isSome
  let p1 := { ban_progress with
    excessive_gas := (ban_progress.excessive_gas + near_gas) % w128 }
  if p1.excessive_gas > near_gas_threshold then
    (some .UsedExcessiveGas, p1)
  else
    match maybe_error with
    | none => (none, p1)
    | some error =>
      match error with
      | .ErrIncorrectNonce | .InvalidECDSA =>
        let threshold :=
          scalarThreshold config.incorrect_nonce_threshold config.token_multiplier token.isSome
        let p2 := { p1 with incorrect_nonce := (p1.incorrect_nonce + 1) % w32 }
        if p2.incorrect_nonce ≥ threshold then
          (some .TooManyIncorrectNonce, p2)
        else
          (none, p2)
      | .MaxGas =>
        let threshold :=
          scalarThreshold config.max_gas_threshold config.token_multiplier token.isSome
        let p2 := { p1 with max_gas := (p1.max_gas + 1) % w32 }
        if p2.max_gas ≥ threshold then
          (some .TooManyMaxGas, p2)
        else
          (none, p2)
      | .Revert msg =>
        let threshold :=
          scalarThreshold config.revert_threshold config.token_multiplier token.isSome
        let p2 := { p1 with revert := p1.revert ++ [msg] }
        if p2.revert.length % w32 ≥ threshold then
          (some .TooManyReverts, p2)
        else
          (none, p2)
      | .Relayer _ => (none, p1)

/-- `Banhammer::process_bucket`. Peeks the excessive-gas bucket
(result discarded, panic propagated), then on an error dispatches to
the matching bucket: peeks the fill with an increment of 1, compares
it against `BucketValue::Reverts(threshold)` under the derived `Ord`,
and either `decrease`s (overflow) or `fill`s with
`BucketValue::Reverts(1)`. Returns the updated engine, `none` on
panic. -/
def Banhammer.process_bucket (s : Banhammer) (bucket_identity : BucketIdentity)
    (bucket_value : BucketNameValue) (maybe_error : Option TransactionError)
    (near_gas : Nat) (token_exist : Bool) : Option Banhammer :=
  let bucket_excessive_gas :=
    BucketName.new bucket_identity bucket_value .UsedExcessiveGas
  match s.leaky_buckets.get_fill bucket_excessive_gas (.UsedExcessiveGas near_gas) with
  | none => none
  | some _ =>
    match maybe_error with
    | none => some s
    | some error =>
      match error with
      | .ErrIncorrectNonce | .InvalidECDSA =>
        let threshold :=
          scalarThreshold s.config.incorrect_nonce_threshold s.config.token_multiplier token_exist
        let bucket_incorrect_nonce :=
          BucketName.new bucket_identity bucket_value .IncorrectNonce
        match s.leaky_buckets.get_fill bucket_incorrect_nonce (.IncorrectNonce 1) with
        | none => none
        | some fill_result =>
          if fill_result.bgt (.Reverts threshold) then
            (s.leaky_buckets.decrease bucket_incorrect_nonce fill_result).map
              fun b => { s with leaky_buckets := b }
          else
            some { s with
              leaky_buckets := s.leaky_buckets.fill bucket_incorrect_nonce (.Reverts 1) }
      | .MaxGas =>
        let threshold :=
          scalarThreshold s.config.max_gas_threshold s.config.token_multiplier token_exist
        let bucket_max_gas := BucketName.new bucket_identity bucket_value .MaxGas
        match s.leaky_buckets.get_fill bucket_max_gas (.MaxGas 1) with
        | none => none
        | some fill_result =>
          if fill_result.bgt (.Reverts threshold) then
            (s.leaky_buckets.decrease bucket_max_gas fill_result).map
              fun b => { s with leaky_buckets := b }
          else
            some { s with
              leaky_buckets := s.leaky_buckets.fill bucket_max_gas (.Reverts 1) }
      | .Revert _ =>
        let threshold :=
          scalarThreshold s.config.revert_threshold s.config.token_multiplier token_exist
        let bucket_reverts := BucketName.new bucket_identity bucket_value .Reverts
        match s.leaky_buckets.get_fill bucket_reverts (.Reverts 1) with
        | none => none
        | some fill_result =>
          if fill_result.bgt (.Reverts threshold) then
            (s.leaky_buckets.decrease bucket_reverts fill_result).map
              fun b => { s with leaky_buckets := b }
          else
            some { s with
              leaky_buckets := s.leaky_buckets.fill bucket_reverts (.Reverts 1) }
      | .Relayer _ => some s

/-- `Banhammer::tick`: when the elapsed time strictly exceeds
`next_check`, reset every tracked user's `ban_progress` and advance
`next_check` by one configured timeframe; otherwise do nothing.
`time.elapsed()` is passed in as `elapsed`. -/
def Banhammer.tick (s : Banhammer) (elapsed : Nat) : Banhammer :=
  if elapsed > s.next_check then
    { s with
      user_clients :=
        s.user_clients.map fun kv => (kv.1, { kv.2 with ban_progress := BanProgress.init }),
      user_addresses :=
        s.user_addresses.map fun kv => (kv.1, { kv.2 with ban_progress := BanProgress.init }),
      user_tokens :=
        s.user_tokens.map fun kv => (kv.1, { kv.2 with ban_progress := BanProgress.init }),
      next_check := s.next_check + s.config.timeframe }
  else
    s

/-- `Banhammer::associate_with_user_client`: get-or-default the
`UserClient` entry, then push the address and (when present) the token
if not already recorded; each push refreshes `updated` with the
current wall clock (`now`). -/
def Banhammer.associate_with_user_client (s : Banhammer) (client : IpAddr)
    (address : EthAddress) (maybe_token : Option Token) (now : Nat) : Banhammer :=
  { s with
    user_clients := alUpsert s.user_clients client UserClient.init fun u =>
      let u1 :=
        if u.addresses.contains address then u
        else { u with updated := now, addresses := u.addresses ++ [address] }
      match maybe_token with
      | some t =>
        if u1.tokens.contains t then u1
        else { u1 with updated := now, tokens := u1.tokens ++ [t] }
      | none => u1 }

/-- `Banhammer::associate_with_user_address`: the mirror-image
bookkeeping on the `UserAddress` entry. -/
def Banhammer.associate_with_user_address (s : Banhammer) (address : EthAddress)
    (client : IpAddr) (maybe_token : Option Token) (now : Nat) : Banhammer :=
  { s with
    user_addresses := alUpsert s.user_addresses address UserAddress.init fun u =>
      let u1 :=
        if u.clients.contains client then u
        else { u with updated := now, clients := u.clients ++ [client] }
      match maybe_token with
      | some t =>
        if u1.tokens.contains t then u1
        else { u1 with updated := now, tokens := u1.tokens ++ [t] }
      | none => u1 }

/-- `Banhammer::associate_with_user_token`. -/
def Banhammer.associate_with_user_token (s : Banhammer) (token : Token)
    (client : IpAddr) (address : EthAddress) (now : Nat) : Banhammer :=
  { s with
    user_tokens := alUpsert s.user_tokens token UserToken.init fun u =>
      let u1 :=
        if u.clients.contains client then u
        else { u with updated := now, clients := u.clients ++ [client] }
      if u1.addresses.contains address then u1
      else { u1 with updated := now, addresses := u1.addresses ++ [address] } }

/-- `Banhammer::increment_transaction_count`: bump the `u64`
transaction counter (wrapping) of each of the message's principals,
refreshing `updated`; a missing entry is an `expect` panic (`none`). -/
def Banhammer.increment_transaction_count (s : Banhammer) (user : UserDetails)
    (now : Nat) : Option Banhammer :=
  match alFind s.user_clients user.client with
  | none => none
  | some uc =>
    let s1 := { s with
      user_clients := alInsert s.user_clients user.client
        { uc with updated := now, transaction_count := (uc.transaction_count + 1) % w64 } }
    match alFind s1.user_addresses user.address with
    | none => none
    | some ua =>
      let s2 := { s1 with
        user_addresses := alInsert s1.user_addresses user.address
          { ua with updated := now, transaction_count := (ua.transaction_count + 1) % w64 } }
      match user.token with
      | none => some s2
      | some t =>
        match alFind s2.user_tokens t with
        | none => none
        | some ut =>
          some { s2 with
            user_tokens := alInsert s2.user_tokens t
              { ut with updated := now, transaction_count := (ut.transaction_count + 1) % w64 } }

/-- The client third of `Banhammer::ban_progression`: skipped (no
check, no mutation) when the client is already on the ban list;
otherwise runs `check_ban` on the client's progress (`ban_progress_mut`
refreshes `updated` first) and writes the mutated progress back. -/
def Banhammer.clientProgression (s : Banhammer) (client : IpAddr)
    (token : Option Token) (maybe_error : Option TransactionError)
    (near_gas now : Nat) : Option (Option BanReason × Banhammer) :=
  if (alFind s.ban_list.clients client).isSome then
    some (none, s)
  else
    match alFind s.user_clients client with
    | none => none
    | some uc =>
      let res := check_ban uc.ban_progress s.config token maybe_error near_gas
      some (res.1, { s with
        user_clients := alInsert s.user_clients client
          { uc with updated := now, ban_progress := res.2 } })

/-- The address third of `Banhammer::ban_progression`. -/
def Banhammer.addressProgression (s : Banhammer) (address : EthAddress)
    (token : Option Token) (maybe_error : Option TransactionError)
    (near_gas now : Nat) : Option (Option BanReason × Banhammer) :=
  if (alFind s.ban_list.addresses address).isSome then
    some (none, s)
  else
    match alFind s.user_addresses address with
    | none => none
    | some ua =>
      let res := check_ban ua.ban_progress s.config token maybe_error near_gas
      some (res.1, { s with
        user_addresses := alInsert s.user_addresses address
          { ua with updated := now, ban_progress := res.2 } })

/-- The token third of `Banhammer::ban_progression`: nothing to do
when the message carries no token; a carried token already on the ban
list is skipped; otherwise `check_ban` runs with `Some(token)`. -/
def Banhammer.tokenProgression (s : Banhammer) (token : Option Token)
    (maybe_error : Option TransactionError) (near_gas now : Nat) :
    Option (Option BanReason × Banhammer) :=
  match token with
  | none => some (none, s)
  | some t =>
    if (alFind s.ban_list.tokens t).isSome then
      some (none, s)
    else
      match alFind s.user_tokens t with
      | none => none
      | some ut =>
        let res := check_ban ut.ban_progress s.config (some t) maybe_error near_gas
        some (res.1, { s with
          user_tokens := alInsert s.user_tokens t
            { ut with updated := now, ban_progress := res.2 } })

/-- `Banhammer::ban_progression`: the three principal checks in order
(client, address, token), each on the state left by the previous one;
returns the triple of optional ban reasons. -/
def Banhammer.ban_progression (s : Banhammer) (user : UserDetails)
    (token : Option Token) (maybe_error : Option TransactionError)
    (near_gas now : Nat) :
    Option ((Option BanReason × Option BanReason × Option BanReason) × Banhammer) :=
  match s.clientProgression user.client token maybe_error near_gas now with
  | none => none
  | some (mc, s1) =>
    match s1.addressProgression user.address token maybe_error near_gas now with
    | none => none
    | some (ma, s2) =>
      match s2.tokenProgression token maybe_error near_gas now with
      | none => none
      | some (mt, s3) => some ((mc, ma, mt), s3)

/-- The client block of the ban-application tail of
`Banhammer::read_input`: with a client ban reason, push the reason and
move the `UserClient` record (looked up by `remove(..).expect(..)` —
panic when missing) from the live map to the ban list with `banned`
set. -/
def Banhammer.applyClientBan (s : Banhammer) (input : RelayerMessage)
    (mb : Option BanReason) : Option (List BanReason × Banhammer) :=
  match mb with
  | none => some ([], s)
  | some ban_reason =>
    match alFind s.user_clients input.client with
    | none => none
    | some uc =>
      some ([ban_reason], { s with
        user_clients := alRemove s.user_clients input.client,
        ban_list := { s.ban_list with
          clients := alInsert s.ban_list.clients input.client
            { uc with banned := some ban_reason } } })

/-- The address block of the ban-application tail of
`Banhammer::read_input`. -/
def Banhammer.applyAddressBan (s : Banhammer) (input : RelayerMessage)
    (mb : Option BanReason) (rs : List BanReason) :
    Option (List BanReason × Banhammer) :=
  match mb with
  | none => some (rs, s)
  | some ban_reason =>
    match alFind s.user_addresses input.fromAddr with
    | none => none
    | some ua =>
      some (rs ++ [ban_reason], { s with
        user_addresses := alRemove s.user_addresses input.fromAddr,
        ban_list := { s.ban_list with
          addresses := alInsert s.ban_list.addresses input.fromAddr
            { ua with banned := some ban_reason } } })

/-- The token block of the ban-application tail of
`Banhammer::read_input`; `user.token.expect(..)` panics when the
message carries no token. -/
def Banhammer.applyTokenBan (s : Banhammer) (input : RelayerMessage)
    (mb : Option BanReason) (rs : List BanReason) :
    Option (List BanReason × Banhammer) :=
  match mb with
  | none => some (rs, s)
  | some ban_reason =>
    match input.token with
    | none => none
    | some t =>
      match alFind s.user_tokens t with
      | none => none
      | some ut =>
        some (rs ++ [ban_reason], { s with
          user_tokens := alRemove s.user_tokens t,
          ban_list := { s.ban_list with
            tokens := alInsert s.ban_list.tokens t
              { ut with banned := some ban_reason } } })

/-- The tail of `Banhammer::read_input`: the three `if let
Some(ban_reason)` blocks, in the order client, address, token. -/
def Banhammer.applyBans (s : Banhammer) (input : RelayerMessage)
    (reasons : Option BanReason × Option BanReason × Option BanReason) :
    Option (List BanReason × Banhammer) :=
  match s.applyClientBan input reasons.1 with
  | none => none
  | some (rs1, s1) =>
    match s1.applyAddressBan input reasons.2.1 rs1 with
    | none => none
    | some (rs2, s2) => s2.applyTokenBan input reasons.2.2 rs2

/-- The head of `Banhammer::read_input`: the three
`associate_with_user_*` calls (token association only when the message
carries a token). -/
def Banhammer.associatePhase (s : Banhammer) (input : RelayerMessage)
    (now : Nat) : Banhammer :=
  let s1 := s.associate_with_user_client input.client input.fromAddr input.token now
  let s2 := s1.associate_with_user_address input.fromAddr input.client input.token now
  match input.token with
  | some t => s2.associate_with_user_token t input.client input.fromAddr now
  | none => s2

/-- The middle of `Banhammer::read_input`: the three `process_bucket`
calls with the fixed `NEAR_GAS_COUNTER` (the token bucket only when
the message carries a token); `none` propagates a panic. -/
def Banhammer.bucketPhase (s : Banhammer) (input : RelayerMessage) :
    Option Banhammer :=
  let token_exist := input.token.isSome
  match s.process_bucket .IP (.IP input.client) input.error NEAR_GAS_COUNTER token_exist with
  | none => none
  | some s4 =>
    match s4.process_bucket .Address (.Address input.fromAddr) input.error
        NEAR_GAS_COUNTER token_exist with
    | none => none
    | some s5 =>
      match input.token with
      | some t =>
        s5.process_bucket .Token (.Token t) input.error NEAR_GAS_COUNTER token_exist
      | none => some s5

/-- `Banhammer::read_input`: associate the message's principals,
process the three principal buckets with the fixed `NEAR_GAS_COUNTER`,
bump transaction counts, run `ban_progression`, and apply any
resulting bans. Returns the emitted ban reasons and the new engine
state; `none` models a panic anywhere along the way. -/
def Banhammer.read_input (s : Banhammer) (input : RelayerMessage) (now : Nat) :
    Option (List BanReason × Banhammer) :=
  let user : UserDetails := ⟨input.client, input.fromAddr, input.token⟩
  let s3 := s.associatePhase input now
  match s3.bucketPhase input with
  | none => none
  | some s6 =>
    match s6.increment_transaction_count user now with
    | none => none
    | some s7 =>
      match s7.ban_progression user user.token input.error NEAR_GAS_COUNTER now with
      | none => none
      | some (reasons, s8) => s8.applyBans input reasons

/-! ### Behavioural lemmas about `check_ban` -/

theorem check_ban_excessive_iff (p : BanProgress) (cfg : Config)
    (tok : Option Token) (err : Option TransactionError) (ng : Nat) :
    (check_ban p cfg tok err ng).1 = some .UsedExcessiveGas ↔
      (p.excessive_gas + ng) % w128 > nearGasThreshold cfg tok.isSome := by
  by_cases h : (p.excessive_gas + ng) % w128 > nearGasThreshold cfg tok.isSome
  · simp [check_ban, h]
  · rcases err with _ | e
    · simp [check_ban, h]
    · rcases e with _ | _ | _ | msg | msg <;> simp only [check_ban, if_neg h]
      · split <;> simp [h]
      · split <;> simp [h]
      · split <;> simp [h]
      · split <;> simp [h]
      · simp [h]

theorem check_ban_no_error (p : BanProgress) (cfg : Config)
    (tok : Option Token) (ng : Nat)
    (h : ¬ (p.excessive_gas + ng) % w128 > nearGasThreshold cfg tok.isSome) :
    (check_ban p cfg tok none ng).1 = none := by
  simp [check_ban, h]

theorem check_ban_nonce_eq (p : BanProgress) (cfg : Config)
    (tok : Option Token) (ng : Nat) (err : TransactionError)
    (herr : err = .ErrIncorrectNonce ∨ err = .InvalidECDSA)
    (h : ¬ (p.excessive_gas + ng) % w128 > nearGasThreshold cfg tok.isSome) :
    (check_ban p cfg tok (some err) ng).1 =
      (if (p.incorrect_nonce + 1) % w32 ≥
          scalarThreshold cfg.incorrect_nonce_threshold cfg.token_multiplier tok.isSome then
        some .TooManyIncorrectNonce
      else
        none) := by
  rcases herr with herr | herr <;> subst herr <;> simp only [check_ban, if_neg h] <;> split <;>
    simp_all

theorem check_ban_maxgas_eq (p : BanProgress) (cfg : Config)
    (tok : Option Token) (ng : Nat)
    (h : ¬ (p.excessive_gas + ng) % w128 > nearGasThreshold cfg tok.isSome) :
    (check_ban p cfg tok (some .MaxGas) ng).1 =
      (if (p.max_gas + 1) % w32 ≥
          scalarThreshold cfg.max_gas_threshold cfg.token_multiplier tok.isSome then
        some .TooManyMaxGas
      else
        none) := by
  simp only [check_ban, if_neg h]
  split <;> simp_all

theorem check_ban_revert_eq (p : BanProgress) (cfg : Config)
    (tok : Option Token) (ng : Nat) (msg : String)
    (h : ¬ (p.excessive_gas + ng) % w128 > nearGasThreshold cfg tok.isSome) :
    (check_ban p cfg tok (some (.Revert msg)) ng).1 =
      (if (p.revert.length + 1) % w32 ≥
          scalarThreshold cfg.revert_threshold cfg.token_multiplier tok.isSome then
        some .TooManyReverts
      else
        none) := by
  simp only [check_ban, if_neg h]
  split
  · rename_i hc
    simp only [List.length_append, List.length_singleton] at hc
    rw [if_pos hc]
  · rename_i hc
    simp only [List.length_append, List.length_singleton] at hc
    rw [if_neg hc]

/-! ### Concrete fixtures for the claim theorems -/

/-- Fixture: a permissive engine configuration (no threshold is
reachable within the scenarios that use it). -/
def cfgLoose : Config := ⟨3600, 10, 10, 10, 1000, 5⟩

/-- Fixture: a configuration whose revert threshold is 1. -/
def cfgRevertOne : Config := ⟨3600, 10, 10, 1, 1000, 5⟩

/-- Fixture client IP. -/
def ip1 : IpAddr := ⟨1⟩

/-- Fixture sender address. -/
def addr1 : EthAddress := ⟨2⟩

/-- Fixture message carrying the max-gas error, no token. -/
def msgMaxGas : RelayerMessage := ⟨ip1, addr1, none, some .MaxGas⟩

/-- Fixture message carrying the incorrect-nonce error, no token. -/
def msgNonce : RelayerMessage := ⟨ip1, addr1, none, some .ErrIncorrectNonce⟩

/-- Fixture message carrying a revert error, no token. -/
def msgRevert : RelayerMessage := ⟨ip1, addr1, none, some (.Revert "x")⟩

/-! ### C1 -/

/-- Claim C1 (code_bug evidence): the claim states that no leaky-bucket
store operation invoked while processing well-formed relayer messages
signals failure, and in particular that two messages from the same
principal both carrying the max-gas (or incorrect-nonce) error are
processed normally. On the code this fails: the first message stores
`BucketValue::Reverts(1)` under the max-gas bucket key, so the second
message's `get_fill` evaluates `Reverts(1) + MaxGas(1)`, whose `Add`
implementation executes `unimplemented!()` — a panic, modelled as
`none`. This theorem shows the first `read_input` completes, the second
one panics (for the max-gas and the incorrect-nonce scenario alike),
and the offending cross-variant addition itself panics. -/
theorem c1_second_message_panics :
    ((Banhammer.new cfgLoose).read_input msgMaxGas 0).isSome = true ∧
    (((Banhammer.new cfgLoose).read_input msgMaxGas 0).bind fun p =>
      p.2.read_input msgMaxGas 0) = none ∧
    ((Banhammer.new cfgLoose).read_input msgNonce 0).isSome = true ∧
    (((Banhammer.new cfgLoose).read_input msgNonce 0).bind fun p =>
      p.2.read_input msgNonce 0) = none ∧
    BucketValue.add (.Reverts 1) (.MaxGas 1) = none := by
  decide

/-! ### C2 -/

/-- Claim C2 (code_bug evidence): the claim states that the decoder
used to parse the record's `error` field classifies the exact string
`ERR_INVALID_ECDSA_SIGNATURE` as the invalid-ECDSA / incorrect-nonce
case. The field decoder (`deserialize_error`, wired to
`RelayerMessage.error`) has no arm for that string and falls through
to `Revert`; only the standalone `impl Deserialize for
TransactionError` maps it to `InvalidECDSA`, as the spec describes. -/
theorem c2_ecdsa_misclassified_as_revert :
    deserialize_error "ERR_INVALID_ECDSA_SIGNATURE" =
      some (.Revert "ERR_INVALID_ECDSA_SIGNATURE") ∧
    TransactionError.deserialize "ERR_INVALID_ECDSA_SIGNATURE" = .InvalidECDSA := by
  decide

/-! ### C3 -/

/-- Fixture key: the revert bucket of client `ip1`. -/
def keyIpReverts : BucketName := BucketName.new .IP (.IP ip1) .Reverts

/-- Fixture: an engine whose revert bucket for `ip1` already holds 5;
its revert threshold is 3. -/
def sRevertsFive : Banhammer :=
  { Banhammer.new ⟨3600, 10, 10, 3, 1000, 5⟩ with
    leaky_buckets := [(keyIpReverts, .Reverts 5)] }

/-- Claim C3 (code_bug evidence): the claim states that after
`read_input` emits a ban event for a bucket key K, the store's fill
for K equals `base_size` from K's bucket configuration. On the code
there is no bucket configuration at all (`Config` has only thresholds)
and ban events are computed from the per-user `BanProgress` counters,
decoupled from the bucket store: with `revert_threshold = 1`, a single
revert message emits ban events while the revert bucket holds fill 1
(whatever a base size might have been), and on the bucket-overflow
path the fill is set to 0 by `decrease` (old − (old + 1) saturates),
not to any configured base. -/
theorem c3_no_base_size_reset :
    (((Banhammer.new cfgRevertOne).read_input msgRevert 0).map fun p => p.1) =
      some [.TooManyReverts, .TooManyReverts] ∧
    (((Banhammer.new cfgRevertOne).read_input msgRevert 0).map fun p =>
      alFind p.2.leaky_buckets keyIpReverts) = some (some (.Reverts 1)) ∧
    ((sRevertsFive.process_bucket .IP (.IP ip1) (some (.Revert "x"))
        NEAR_GAS_COUNTER false).map fun s =>
      alFind s.leaky_buckets keyIpReverts) = some (some (.Reverts 0)) := by
  decide

/-! ### C4 -/

/-- Claim C4 (code_bug evidence): the claim states that a `tick` past
a key's retention deadline removes the key from the bucket store and
the retention index. On the code `tick` only resets the per-user
`BanProgress` counters and advances `next_check`: the leaky-bucket
store is untouched by every `tick` call, on both sides of the
deadline, and the engine holds no retention index at all (the
`BucketPriorityQueue` type is never reachable from `Banhammer`). -/
theorem c4_tick_never_removes_buckets (s : Banhammer) (elapsed : Nat) :
    (s.tick elapsed).leaky_buckets = s.leaky_buckets := by
  unfold Banhammer.tick
  split <;> rfl

/-! ### C5 -/

/-- Fixture configuration for the C5 boundary: excessive-gas threshold
1 (so the threshold is exactly `10^12`), everything else loose. -/
def cfgEgOne : Config := ⟨3600, 10, 10, 10, 1, 1⟩

/-- Claim C5 counterexample: with `excessive_gas_threshold = 1` and no
token, a single `check_ban` whose accumulated excessive gas lands
exactly on the threshold `10^12` (`proposed == threshold`) returns no
ban reason — the excessive-gas comparison is strict (`>`), so exact
equality is not treated as overflow, contradicting the claim. -/
theorem c5_counterexample :
    BanProgress.init.excessive_gas + 1000000000000 = nearGasThreshold cfgEgOne false ∧
    (check_ban BanProgress.init cfgEgOne none none 1000000000000).1 = none := by
  decide

/-- Claim C5 (amended): exact equality `proposed == threshold` is
treated as overflow for the incorrect-nonce, max-gas and revert
counters (their comparisons use `>=`), but not for the
`UsedExcessiveGas` accumulator, whose comparison is strict (`>`): at
exact equality no excessive-gas ban is emitted. Stated away from the
`u32` / `u128` wrap boundaries. -/
theorem c5_equality_boundary (p : BanProgress) (cfg : Config)
    (tok : Option Token) (ng : Nat)
    (h128 : p.excessive_gas + ng < w128) :
    (p.excessive_gas + ng = nearGasThreshold cfg tok.isSome →
      (check_ban p cfg tok none ng).1 = none) ∧
    (∀ err, (err = TransactionError.ErrIncorrectNonce ∨ err = TransactionError.InvalidECDSA) →
      p.excessive_gas + ng ≤ nearGasThreshold cfg tok.isSome →
      p.incorrect_nonce + 1 < w32 →
      p.incorrect_nonce + 1 =
        scalarThreshold cfg.incorrect_nonce_threshold cfg.token_multiplier tok.isSome →
      (check_ban p cfg tok (some err) ng).1 = some .TooManyIncorrectNonce) ∧
    (p.excessive_gas + ng ≤ nearGasThreshold cfg tok.isSome →
      p.max_gas + 1 < w32 →
      p.max_gas + 1 = scalarThreshold cfg.max_gas_threshold cfg.token_multiplier tok.isSome →
      (check_ban p cfg tok (some .MaxGas) ng).1 = some .TooManyMaxGas) ∧
    (∀ msg, p.excessive_gas + ng ≤ nearGasThreshold cfg tok.isSome →
      p.revert.length + 1 < w32 →
      p.revert.length + 1 =
        scalarThreshold cfg.revert_threshold cfg.token_multiplier tok.isSome →
      (check_ban p cfg tok (some (.Revert msg)) ng).1 = some .TooManyReverts) := by
  have hmod : (p.excessive_gas + ng) % w128 = p.excessive_gas + ng :=
    Nat.mod_eq_of_lt h128
  refine ⟨?_, ?_, ?_, ?_⟩
  · intro heq
    have hno : ¬ (p.excessive_gas + ng) % w128 > nearGasThreshold cfg tok.isSome := by
      rw [hmod, heq]
      exact lt_irrefl _
    exact check_ban_no_error p cfg tok ng hno
  · intro err herr hle hlt heq
    have hno : ¬ (p.excessive_gas + ng) % w128 > nearGasThreshold cfg tok.isSome := by
      rw [hmod]
      exact not_lt.mpr hle
    rw [check_ban_nonce_eq p cfg tok ng err herr hno,
      if_pos (by rw [Nat.mod_eq_of_lt hlt, heq])]
  · intro hle hlt heq
    have hno : ¬ (p.excessive_gas + ng) % w128 > nearGasThreshold cfg tok.isSome := by
      rw [hmod]
      exact not_lt.mpr hle
    rw [check_ban_maxgas_eq p cfg tok ng hno,
      if_pos (by rw [Nat.mod_eq_of_lt hlt, heq])]
  · intro msg hle hlt heq
    have hno : ¬ (p.excessive_gas + ng) % w128 > nearGasThreshold cfg tok.isSome := by
      rw [hmod]
      exact not_lt.mpr hle
    rw [check_ban_revert_eq p cfg tok ng msg hno,
      if_pos (by rw [Nat.mod_eq_of_lt hlt, heq])]

/-- Witness for the amended C5 theorem: at
`incorrect_nonce_threshold = 10` and nine prior incorrect nonces, the
tenth (`proposed == threshold`) emits the ban. -/
theorem c5_equality_boundary_witness :
    (check_ban ⟨9, 0, [], 0⟩ cfgLoose none (some .ErrIncorrectNonce)
      NEAR_GAS_COUNTER).1 = some .TooManyIncorrectNonce :=
  ((c5_equality_boundary ⟨9, 0, [], 0⟩ cfgLoose none NEAR_GAS_COUNTER
    (by decide)).2.1 .ErrIncorrectNonce (Or.inl rfl) (by decide) (by decide) (by decide))

/-! ### C6 -/

/-- Claim C6: with a token present, every threshold `check_ban`
applies is the configured threshold multiplied by `token_multiplier`;
the excessive-gas threshold is `excessive_gas_threshold * 10^12 *
token_multiplier` with a token and `excessive_gas_threshold * 10^12`
without. Stated behaviourally, away from the wrap boundaries: the
excessive-gas ban fires exactly when the accumulator strictly exceeds
the (scaled) product, and each error-class ban fires exactly when its
incremented counter reaches the (scaled) product. -/
theorem c6_token_multiplier_scaling (cfg : Config) (p : BanProgress)
    (t : Token) (ng : Nat)
    (hsum : p.excessive_gas + ng < w128)
    (hp1 : cfg.excessive_gas_threshold * 1000000000000 < w128)
    (hp2 : cfg.excessive_gas_threshold * 1000000000000 * cfg.token_multiplier < w128) :
    (∀ err, ((check_ban p cfg (some t) err ng).1 = some .UsedExcessiveGas ↔
      p.excessive_gas + ng >
        cfg.excessive_gas_threshold * 1000000000000 * cfg.token_multiplier)) ∧
    (∀ err, ((check_ban p cfg none err ng).1 = some .UsedExcessiveGas ↔
      p.excessive_gas + ng > cfg.excessive_gas_threshold * 1000000000000)) ∧
    (cfg.incorrect_nonce_threshold * cfg.token_multiplier < w32 →
      p.incorrect_nonce + 1 < w32 →
      p.excessive_gas + ng ≤
        cfg.excessive_gas_threshold * 1000000000000 * cfg.token_multiplier →
      ((check_ban p cfg (some t) (some .ErrIncorrectNonce) ng).1 =
          some .TooManyIncorrectNonce ↔
        p.incorrect_nonce + 1 ≥ cfg.incorrect_nonce_threshold * cfg.token_multiplier)) ∧
    (cfg.max_gas_threshold * cfg.token_multiplier < w32 →
      p.max_gas + 1 < w32 →
      p.excessive_gas + ng ≤
        cfg.excessive_gas_threshold * 1000000000000 * cfg.token_multiplier →
      ((check_ban p cfg (some t) (some .MaxGas) ng).1 = some .TooManyMaxGas ↔
        p.max_gas + 1 ≥ cfg.max_gas_threshold * cfg.token_multiplier)) ∧
    (∀ msg, cfg.revert_threshold * cfg.token_multiplier < w32 →
      p.revert.length + 1 < w32 →
      p.excessive_gas + ng ≤
        cfg.excessive_gas_threshold * 1000000000000 * cfg.token_multiplier →
      ((check_ban p cfg (some t) (some (.Revert msg)) ng).1 = some .TooManyReverts ↔
        p.revert.length + 1 ≥ cfg.revert_threshold * cfg.token_multiplier)) := by
  have hng_t : nearGasThreshold cfg true =
      cfg.excessive_gas_threshold * 1000000000000 * cfg.token_multiplier := by
    simp [nearGasThreshold, Nat.mod_eq_of_lt hp1, Nat.mod_eq_of_lt hp2]
  have hng_f : nearGasThreshold cfg false =
      cfg.excessive_gas_threshold * 1000000000000 := by
    simp [nearGasThreshold, Nat.mod_eq_of_lt hp1]
  refine ⟨?_, ?_, ?_, ?_, ?_⟩
  · intro err
    rw [check_ban_excessive_iff]
    simp only [Option.isSome_some]
    rw [hng_t, Nat.mod_eq_of_lt hsum]
  · intro err
    rw [check_ban_excessive_iff]
    simp only [Option.isSome_none]
    rw [hng_f, Nat.mod_eq_of_lt hsum]
  · intro h32 hn hle
    have hno : ¬ (p.excessive_gas + ng) % w128 >
        nearGasThreshold cfg (some t).isSome := by
      simp only [Option.isSome_some]
      rw [hng_t, Nat.mod_eq_of_lt hsum]
      exact not_lt.mpr hle
    rw [check_ban_nonce_eq p cfg (some t) ng _ (Or.inl rfl) hno]
    have hsc : scalarThreshold cfg.incorrect_nonce_threshold cfg.token_multiplier
        (some t).isSome = cfg.incorrect_nonce_threshold * cfg.token_multiplier := by
      simp [scalarThreshold, Nat.mod_eq_of_lt h32]
    rw [hsc, Nat.mod_eq_of_lt hn]
    split <;> simp_all
  · intro h32 hn hle
    have hno : ¬ (p.excessive_gas + ng) % w128 >
        nearGasThreshold cfg (some t).isSome := by
      simp only [Option.isSome_some]
      rw [hng_t, Nat.mod_eq_of_lt hsum]
      exact not_lt.mpr hle
    rw [check_ban_maxgas_eq p cfg (some t) ng hno]
    have hsc : scalarThreshold cfg.max_gas_threshold cfg.token_multiplier
        (some t).isSome = cfg.max_gas_threshold * cfg.token_multiplier := by
      simp [scalarThreshold, Nat.mod_eq_of_lt h32]
    rw [hsc, Nat.mod_eq_of_lt hn]
    split <;> simp_all
  · intro msg h32 hn hle
    have hno : ¬ (p.excessive_gas + ng) % w128 >
        nearGasThreshold cfg (some t).isSome := by
      simp only [Option.isSome_some]
      rw [hng_t, Nat.mod_eq_of_lt hsum]
      exact not_lt.mpr hle
    rw [check_ban_revert_eq p cfg (some t) ng msg hno]
    have hsc : scalarThreshold cfg.revert_threshold cfg.token_multiplier
        (some t).isSome = cfg.revert_threshold * cfg.token_multiplier := by
      simp [scalarThreshold, Nat.mod_eq_of_lt h32]
    rw [hsc, Nat.mod_eq_of_lt hn]
    split <;> simp_all

/-- Fixture token (43 characters, as the wire format allows). -/
def tok1 : Token := ⟨"AAAAAAAAAAAAAAAAAAAAAAAAAAAAAAAAAAAAAAAAAAA"⟩

/-- Witness for C6: with `max_gas_threshold = 2` and
`token_multiplier = 5` and a token present, the ninth max-gas error
does not reach the scaled threshold 10, and the accumulated
excessive gas of one message stays below the scaled
`1000 * 10^12 * 5`. -/
theorem c6_token_multiplier_scaling_witness :
    ((check_ban ⟨0, 8, [], 0⟩ ⟨3600, 10, 2, 10, 1000, 5⟩ (some tok1)
        (some .MaxGas) NEAR_GAS_COUNTER).1 = some .TooManyMaxGas ↔
      (9 : Nat) ≥ 2 * 5) ∧
    ((check_ban ⟨0, 8, [], 0⟩ ⟨3600, 10, 2, 10, 1000, 5⟩ (some tok1)
        (some .MaxGas) NEAR_GAS_COUNTER).1 = some .UsedExcessiveGas ↔
      (0 : Nat) + NEAR_GAS_COUNTER > 1000 * 1000000000000 * 5) := by
  constructor
  · exact (c6_token_multiplier_scaling ⟨3600, 10, 2, 10, 1000, 5⟩ ⟨0, 8, [], 0⟩
      tok1 NEAR_GAS_COUNTER (by decide) (by decide) (by decide)).2.2.2.1
      (by decide) (by decide) (by decide)
  · exact (c6_token_multiplier_scaling ⟨3600, 10, 2, 10, 1000, 5⟩ ⟨0, 8, [], 0⟩
      tok1 NEAR_GAS_COUNTER (by decide) (by decide) (by decide)).1 (some .MaxGas)

/-! ### C7 -/

/-- Payload width at which `BucketValue.add` wraps: `u128` for
`UsedExcessiveGas`, `u32` for the other variants. -/
def BucketValue.tagWidth (v : BucketValue) : Nat :=
  if v.tag = 3 then w128 else w32

/-- Fixture key: the max-gas bucket of client `ip1`. -/
def keyIpMaxGas : BucketName := BucketName.new .IP (.IP ip1) .MaxGas

/-- Claim C7 counterexample: the claim states that for every bucket
key and every increment whose variant matches the key's error kind,
`get_fill` returns `current_fill + added` whenever the key is present.
On the code this fails on a reachable store: a single max-gas message
stores `BucketValue::Reverts(1)` under the max-gas bucket key (shown
on `read_input`), and peeking that key with the matching increment
`MaxGas(1)` makes `impl Add` evaluate `Reverts(1) + MaxGas(1)`, which
executes `unimplemented!()` — a panic (`none`), not a sum. -/
theorem c7_counterexample :
    (((Banhammer.new cfgLoose).read_input msgMaxGas 0).map fun p =>
      alFind p.2.leaky_buckets keyIpMaxGas) = some (some (.Reverts 1)) ∧
    (BucketValue.MaxGas 1).tag = keyIpMaxGas.error.tag ∧
    LeakyBucket.get_fill [(keyIpMaxGas, .Reverts 1)] keyIpMaxGas (.MaxGas 1) = none := by
  decide

/-- Claim C7 (amended): `get_fill` is a pure peek — it takes `&self`
in the source, so the store is unmodified by construction (the
embedding returns no store at all) — and it returns the increment
itself whenever the key is absent. When the key is present, the
outcome depends on the stored value: if the stored value's variant
matches the (non-Custom) key error kind and the increment, the result
is the stored fill plus the increment (modulo the payload width;
stated away from the wrap); if the stored value's variant differs from
the increment's — a state the engine itself reaches after a single
max-gas or incorrect-nonce error — `get_fill` panics instead of
returning a fill, as it does for every present key whose error kind is
`Custom`. -/
theorem c7_get_fill_peek (store : LeakyBucket) (key : BucketName)
    (value : BucketValue) :
    (alFind store key = none → store.get_fill key value = some value) ∧
    (∀ old, alFind store key = some old → value.tag = key.error.tag →
      key.error.tag < 4 → old.tag = value.tag →
      old.payload + value.payload < value.tagWidth →
      ((store.get_fill key value).map fun r => (r.tag, r.payload)) =
        some (value.tag, old.payload + value.payload)) ∧
    (∀ old, alFind store key = some old → value.tag = key.error.tag →
      key.error.tag < 4 → old.tag ≠ value.tag →
      store.get_fill key value = none) ∧
    (∀ old tg, alFind store key = some old → key.error = .Custom tg →
      store.get_fill key value = none) := by
  refine ⟨?_, ?_, ?_, ?_⟩
  · intro h
    simp [LeakyBucket.get_fill, h]
  · intro old hfind hmatch hkind htag hlt
    cases herr : key.error <;> cases value <;> cases old <;>
      simp_all [LeakyBucket.get_fill, BucketValue.add, BucketValue.tag,
        BucketErrorKind.tag, BucketValue.payload, BucketValue.tagWidth,
        Nat.mod_eq_of_lt]
  · intro old hfind hmatch hkind htag
    cases herr : key.error <;> cases value <;> cases old <;>
      simp_all [LeakyBucket.get_fill, BucketValue.add, BucketValue.tag,
        BucketErrorKind.tag]
  · intro old tg hfind herr
    simp [LeakyBucket.get_fill, hfind, herr]

/-- Fixture store for the C7 witness. -/
def storeC7 : LeakyBucket := [(keyIpReverts, .Reverts 4)]

/-- Witness for the amended C7 theorem: peeking the revert bucket
holding 4 with an increment of 1 yields fill 5 on the present key, the
raw increment on an absent key, and a panic on the engine-reachable
store holding `Reverts 1` under the max-gas key. -/
theorem c7_get_fill_peek_witness :
    ((storeC7.get_fill keyIpReverts (.Reverts 1)).map fun r => (r.tag, r.payload)) =
      some ((BucketValue.Reverts 1).tag, 4 + 1) ∧
    LeakyBucket.new.get_fill keyIpReverts (.Reverts 1) = some (.Reverts 1) ∧
    LeakyBucket.get_fill [(keyIpMaxGas, .Reverts 1)] keyIpMaxGas (.MaxGas 1) = none := by
  refine ⟨?_, ?_, ?_⟩
  · exact (c7_get_fill_peek storeC7 keyIpReverts (.Reverts 1)).2.1 (.Reverts 4)
      (by decide) (by decide) (by decide) (by decide) (by decide)
  · exact (c7_get_fill_peek LeakyBucket.new keyIpReverts (.Reverts 1)).1 (by decide)
  · exact (c7_get_fill_peek [(keyIpMaxGas, .Reverts 1)] keyIpMaxGas (.MaxGas 1)).2.2.1
      (.Reverts 1) (by decide) (by decide) (by decide) (by decide)

/-! ### C8 -/

/-- Fixture keys and queue for C8: two revert buckets touched at
timestamps 1 (stale) and 2 (fresh). -/
def c8k1 : BucketName := BucketName.new .IP (.IP ⟨3⟩) .Reverts

/-- Fixture: the fresher key of the C8 queue. -/
def c8k2 : BucketName := BucketName.new .IP (.IP ⟨4⟩) .Reverts

/-- Fixture: a retention queue holding `c8k1` at timestamp 1 and
`c8k2` at timestamp 2. -/
def c8q : BucketPriorityQueue := ⟨[(c8k1, 1), (c8k2, 2)]⟩

/-- Claim C8 counterexample: the claim states that `peek` and `pop`
return the entry whose last-activity timestamp is the minimum
(stalest). On a queue holding timestamps 1 and 2, `peek` returns the
entry with timestamp 2 — the maximum — while an entry with the
strictly smaller timestamp 1 is present, so the claim is false. -/
theorem c8_counterexample :
    c8q.peek = some (c8k2, 2) ∧ (c8k1, (1 : Nat)) ∈ c8q.entries ∧ (1 : Nat) < 2 := by
  decide

/-- Claim C8 (amended): the retention index is a max-priority queue on
raw timestamps, so `peek` and `pop` return an entry whose
last-activity timestamp is the maximum (most recent) among all
entries, and `pop` removes exactly that entry — repeated pops produce
keys ordered newest-first, not stalest-first. -/
theorem c8_pop_newest_first (q : BucketPriorityQueue) (e : BucketName × Nat)
    (h : q.peek = some e) :
    (e ∈ q.entries ∧ ∀ x ∈ q.entries, x.2 ≤ e.2) ∧
    q.pop = some (e, ⟨alRemove q.entries e.1⟩) := by
  refine ⟨BucketPriorityQueue.peekAux_mem_and_max q.entries e h, ?_⟩
  unfold BucketPriorityQueue.pop
  rw [show q.peek = some e from h]

/-- Witness for the amended C8 theorem on the concrete two-entry
queue. -/
theorem c8_pop_newest_first_witness :
    (((c8k2, 2) : BucketName × Nat) ∈ c8q.entries ∧
      ∀ x ∈ c8q.entries, x.2 ≤ 2) ∧
    c8q.pop = some ((c8k2, 2), ⟨alRemove c8q.entries c8k2⟩) :=
  c8_pop_newest_first c8q (c8k2, 2) (by decide)

/-! ### Frame lemmas towards C9 -/

theorem process_bucket_banlist (s : Banhammer) (i : BucketIdentity)
    (v : BucketNameValue) (e : Option TransactionError) (g : Nat) (te : Bool)
    (s2 : Banhammer) (h : s.process_bucket i v e g te = some s2) :
    s2.ban_list = s.ban_list := by
  simp only [Banhammer.process_bucket] at h
  repeat' first
  | exact Option.noConfusion h
  | (rcases Option.map_eq_some'.mp h with ⟨b, hb, heq⟩; cases heq; rfl)
  | (cases Option.some.inj h; rfl)
  | split at h

theorem increment_transaction_count_banlist (s : Banhammer) (u : UserDetails)
    (now : Nat) (s2 : Banhammer)
    (h : s.increment_transaction_count u now = some s2) :
    s2.ban_list = s.ban_list := by
  simp only [Banhammer.increment_transaction_count] at h
  repeat' first
  | exact Option.noConfusion h
  | (cases Option.some.inj h; rfl)
  | split at h

theorem clientProgression_spec (s : Banhammer) (c : IpAddr) (tok : Option Token)
    (e : Option TransactionError) (g now : Nat) (mb : Option BanReason)
    (s2 : Banhammer) (h : s.clientProgression c tok e g now = some (mb, s2)) :
    s2.ban_list = s.ban_list ∧
      (mb.isSome = true → alFind s.ban_list.clients c = none) := by
  unfold Banhammer.clientProgression at h
  split at h
  · rename_i hbanned
    cases Option.some.inj h
    exact ⟨rfl, fun hcon => by simp at hcon⟩
  · rename_i hbanned
    split at h
    · exact Option.noConfusion h
    · cases Option.some.inj h
      exact ⟨rfl, fun _ => Option.not_isSome_iff_eq_none.mp hbanned⟩

theorem addressProgression_spec (s : Banhammer) (a : EthAddress)
    (tok : Option Token) (e : Option TransactionError) (g now : Nat)
    (mb : Option BanReason) (s2 : Banhammer)
    (h : s.addressProgression a tok e g now = some (mb, s2)) :
    s2.ban_list = s.ban_list ∧
      (mb.isSome = true → alFind s.ban_list.addresses a = none) := by
  unfold Banhammer.addressProgression at h
  split at h
  · cases Option.some.inj h
    exact ⟨rfl, fun hcon => by simp at hcon⟩
  · rename_i hbanned
    split at h
    · exact Option.noConfusion h
    · cases Option.some.inj h
      exact ⟨rfl, fun _ => Option.not_isSome_iff_eq_none.mp hbanned⟩

theorem tokenProgression_spec (s : Banhammer) (tok : Option Token)
    (e : Option TransactionError) (g now : Nat) (mb : Option BanReason)
    (s2 : Banhammer) (h : s.tokenProgression tok e g now = some (mb, s2)) :
    s2.ban_list = s.ban_list ∧
      (∀ t, tok = some t → mb.isSome = true → alFind s.ban_list.tokens t = none) ∧
      (tok = none → mb = none) := by
  unfold Banhammer.tokenProgression at h
  split at h
  · cases Option.some.inj h
    exact ⟨rfl, fun t ht => Option.noConfusion ht, fun _ => rfl⟩
  · rename_i t
    split at h
    · cases Option.some.inj h
      exact ⟨rfl, fun t2 ht2 hcon => by simp at hcon, fun hcon => Option.noConfusion hcon⟩
    · rename_i hbanned
      split at h
      · exact Option.noConfusion h
      · cases Option.some.inj h
        refine ⟨rfl, ?_, fun hcon => Option.noConfusion hcon⟩
        intro t2 ht2 _
        cases Option.some.inj ht2
        exact Option.not_isSome_iff_eq_none.mp hbanned

theorem ban_progression_spec (s : Banhammer) (u : UserDetails)
    (tok : Option Token) (e : Option TransactionError) (g now : Nat)
    (mc ma mt : Option BanReason) (s2 : Banhammer)
    (h : s.ban_progression u tok e g now = some ((mc, ma, mt), s2)) :
    s2.ban_list = s.ban_list ∧
      (mc.isSome = true → alFind s.ban_list.clients u.client = none) ∧
      (ma.isSome = true → alFind s.ban_list.addresses u.address = none) ∧
      (∀ t, tok = some t → mt.isSome = true → alFind s.ban_list.tokens t = none) ∧
      (tok = none → mt = none) := by
  unfold Banhammer.ban_progression at h
  split at h
  · exact Option.noConfusion h
  · rename_i mb1 sa hp1
    split at h
    · exact Option.noConfusion h
    · rename_i mb2 sb hp2
      split at h
      · exact Option.noConfusion h
      · rename_i mb3 sc hp3
        obtain ⟨hbl1, hc1⟩ := clientProgression_spec s u.client tok e g now mb1 sa hp1
        obtain ⟨hbl2, hc2⟩ := addressProgression_spec sa u.address tok e g now mb2 sb hp2
        obtain ⟨hbl3, hc3, hc4⟩ := tokenProgression_spec sb tok e g now mb3 sc hp3
        rw [hbl1] at hbl2 hc2
        rw [hbl2] at hbl3 hc3
        cases Option.some.inj h
        exact ⟨hbl3, hc1, hc2, hc3, hc4⟩

theorem applyClientBan_spec (s : Banhammer) (input : RelayerMessage)
    (mb : Option BanReason) (rs1 : List BanReason) (s1 : Banhammer)
    (h : s.applyClientBan input mb = some (rs1, s1)) :
    (∀ ip, ip ≠ input.client →
      alFind s1.ban_list.clients ip = alFind s.ban_list.clients ip) ∧
    (mb = none → s1.ban_list = s.ban_list) ∧
    rs1 = mb.toList ∧
    s1.ban_list.addresses = s.ban_list.addresses ∧
    s1.ban_list.tokens = s.ban_list.tokens := by
  unfold Banhammer.applyClientBan at h
  split at h
  · cases Option.some.inj h
    exact ⟨fun ip _ => rfl, fun _ => rfl, rfl, rfl, rfl⟩
  · split at h
    · exact Option.noConfusion h
    · cases Option.some.inj h
      refine ⟨?_, fun hcon => Option.noConfusion hcon, rfl, rfl, rfl⟩
      intro ip hip
      exact alFind_alInsert_ne _ input.client ip _ (Ne.symm hip)

theorem applyAddressBan_spec (s : Banhammer) (input : RelayerMessage)
    (mb : Option BanReason) (rs : List BanReason) (rs2 : List BanReason)
    (s2 : Banhammer) (h : s.applyAddressBan input mb rs = some (rs2, s2)) :
    (∀ a, a ≠ input.fromAddr →
      alFind s2.ban_list.addresses a = alFind s.ban_list.addresses a) ∧
    (mb = none → s2.ban_list = s.ban_list) ∧
    rs2 = rs ++ mb.toList ∧
    s2.ban_list.clients = s.ban_list.clients ∧
    s2.ban_list.tokens = s.ban_list.tokens := by
  unfold Banhammer.applyAddressBan at h
  split at h
  · cases Option.some.inj h
    exact ⟨fun a _ => rfl, fun _ => rfl, (List.append_nil rs).symm, rfl, rfl⟩
  · split at h
    · exact Option.noConfusion h
    · cases Option.some.inj h
      refine ⟨?_, fun hcon => Option.noConfusion hcon, rfl, rfl, rfl⟩
      intro a ha
      exact alFind_alInsert_ne _ input.fromAddr a _ (Ne.symm ha)

theorem applyTokenBan_spec (s : Banhammer) (input : RelayerMessage)
    (mb : Option BanReason) (rs : List BanReason) (rs2 : List BanReason)
    (s2 : Banhammer) (h : s.applyTokenBan input mb rs = some (rs2, s2)) :
    (∀ t2 t, input.token = some t2 → t ≠ t2 →
      alFind s2.ban_list.tokens t = alFind s.ban_list.tokens t) ∧
    (mb = none → s2.ban_list = s.ban_list) ∧
    rs2 = rs ++ mb.toList ∧
    s2.ban_list.clients = s.ban_list.clients ∧
    s2.ban_list.addresses = s.ban_list.addresses := by
  unfold Banhammer.applyTokenBan at h
  split at h
  · cases Option.some.inj h
    exact ⟨fun t2 t _ _ => rfl, fun _ => rfl, (List.append_nil rs).symm, rfl, rfl⟩
  · split at h
    · exact Option.noConfusion h
    · rename_i t htok
      split at h
      · exact Option.noConfusion h
      · cases Option.some.inj h
        refine ⟨?_, fun hcon => Option.noConfusion hcon, rfl, rfl, rfl⟩
        intro t2 t3 ht2 ht3
        have hte : t = t2 := by
          rw [htok] at ht2
          exact Option.some.inj ht2
        subst hte
        exact alFind_alInsert_ne _ t t3 _ (Ne.symm ht3)

theorem applyBans_spec (s : Banhammer) (input : RelayerMessage)
    (mc ma mt : Option BanReason) (r : List BanReason) (s2 : Banhammer)
    (h : s.applyBans input (mc, ma, mt) = some (r, s2)) :
    (∀ ip, ip ≠ input.client →
      alFind s2.ban_list.clients ip = alFind s.ban_list.clients ip) ∧
    (mc = none → s2.ban_list.clients = s.ban_list.clients) ∧
    (∀ a, a ≠ input.fromAddr →
      alFind s2.ban_list.addresses a = alFind s.ban_list.addresses a) ∧
    (ma = none → s2.ban_list.addresses = s.ban_list.addresses) ∧
    (∀ t2 t, input.token = some t2 → t ≠ t2 →
      alFind s2.ban_list.tokens t = alFind s.ban_list.tokens t) ∧
    (mt = none → s2.ban_list.tokens = s.ban_list.tokens) ∧
    r = mc.toList ++ ma.toList ++ mt.toList := by
  unfold Banhammer.applyBans at h
  split at h
  · exact Option.noConfusion h
  · rename_i rs1 sa hcb
    split at h
    · exact Option.noConfusion h
    · rename_i rs2 sb hab
      obtain ⟨hc1, hc2, hcr, hc3, hc4⟩ := applyClientBan_spec s input mc rs1 sa hcb
      obtain ⟨ha1, ha2, har, ha3, ha4⟩ := applyAddressBan_spec sa input ma rs1 rs2 sb hab
      obtain ⟨ht1, ht2, htr, ht3, ht4⟩ := applyTokenBan_spec sb input mt rs2 r s2 h
      refine ⟨?_, ?_, ?_, ?_, ?_, ?_, ?_⟩
      · intro ip hip
        rw [ht3, ha3, hc1 ip hip]
      · intro hmc
        rw [ht3, ha3, hc2 hmc]
      · intro a ha
        rw [ht4, ha1 a ha, hc3]
      · intro hma
        rw [ht4, ha2 hma, hc3]
      · intro t2 t ht2tok hne
        rw [ht1 t2 t ht2tok hne, ha4, hc4]
      · intro hmt
        rw [ht2 hmt, ha4, hc4]
      · rw [htr, har, hcr, List.append_assoc]

theorem associatePhase_banlist (s : Banhammer) (m : RelayerMessage) (now : Nat) :
    (s.associatePhase m now).ban_list = s.ban_list := by
  unfold Banhammer.associatePhase
  split <;> rfl

theorem bucketPhase_banlist (s : Banhammer) (m : RelayerMessage) (s6 : Banhammer)
    (h : s.bucketPhase m = some s6) : s6.ban_list = s.ban_list := by
  cases htok : m.token with
  | none =>
    simp only [Banhammer.bucketPhase, htok] at h
    split at h
    · exact Option.noConfusion h
    · rename_i s4 hpb1
      split at h
      · exact Option.noConfusion h
      · rename_i s5 hpb2
        have h4 := process_bucket_banlist _ _ _ _ _ _ _ hpb1
        have h5 := process_bucket_banlist _ _ _ _ _ _ _ hpb2
        cases Option.some.inj h
        rw [h5, h4]
  | some t =>
    simp only [Banhammer.bucketPhase, htok] at h
    split at h
    · exact Option.noConfusion h
    · rename_i s4 hpb1
      split at h
      · exact Option.noConfusion h
      · rename_i s5 hpb2
        have h4 := process_bucket_banlist _ _ _ _ _ _ _ hpb1
        have h5 := process_bucket_banlist _ _ _ _ _ _ _ hpb2
        have h6 := process_bucket_banlist _ _ _ _ _ _ _ h
        rw [h6, h5, h4]

theorem read_input_structure (s : Banhammer) (m : RelayerMessage) (now : Nat)
    (r : List BanReason) (sFin : Banhammer)
    (h : s.read_input m now = some (r, sFin)) :
    ∃ (s7 s8 : Banhammer) (mc ma mt : Option BanReason),
      s8.ban_list = s.ban_list ∧
      s7.ban_progression ⟨m.client, m.fromAddr, m.token⟩ m.token m.error
        NEAR_GAS_COUNTER now = some ((mc, ma, mt), s8) ∧
      (mc.isSome = true → alFind s.ban_list.clients m.client = none) ∧
      (ma.isSome = true → alFind s.ban_list.addresses m.fromAddr = none) ∧
      (∀ t, m.token = some t → mt.isSome = true → alFind s.ban_list.tokens t = none) ∧
      (m.token = none → mt = none) ∧
      s8.applyBans m (mc, ma, mt) = some (r, sFin) := by
  simp only [Banhammer.read_input] at h
  split at h
  · exact Option.noConfusion h
  · rename_i s6 hbpha
    split at h
    · exact Option.noConfusion h
    · rename_i s7 hitc
      split at h
      · exact Option.noConfusion h
      · rename_i reasons s8 hbp
        obtain ⟨mc, ma, mt⟩ := reasons
        have h6 : s6.ban_list = s.ban_list := by
          rw [bucketPhase_banlist _ _ _ hbpha, associatePhase_banlist]
        have h7 : s7.ban_list = s6.ban_list :=
          increment_transaction_count_banlist _ _ _ _ hitc
        obtain ⟨h8, hmc, hma, hmt, hmtn⟩ :=
          ban_progression_spec s7 _ m.token m.error NEAR_GAS_COUNTER now mc ma mt s8 hbp
        rw [h7, h6] at h8 hmc hma hmt
        exact ⟨s7, s8, mc, ma, mt, h8, hbp, hmc, hma, hmt, hmtn, h⟩

/-! ### C9 -/

/-- Claim C9: bans are permanent and never re-issued. For every
completed `read_input` call (one that returns rather than panicking):
every pre-existing ban-list entry — client, address or token — is
unchanged in the resulting state; and the returned reason list is
exactly the in-order concatenation of the three per-principal reasons
computed by the engine's own `ban_progression`, in which the slot of
every principal already on the ban list is `none` — so a banned
principal's reason is never re-computed nor re-emitted, also in mixed
messages whose other principals are not banned (`ban_progression`
skips `check_ban` entirely for ban-listed principals, and only
principals absent from the ban list can be inserted). -/
theorem c9_bans_permanent (s : Banhammer) (m : RelayerMessage) (now : Nat)
    (r : List BanReason) (sFin : Banhammer)
    (h : s.read_input m now = some (r, sFin)) :
    (∀ ip, (alFind s.ban_list.clients ip).isSome = true →
      alFind sFin.ban_list.clients ip = alFind s.ban_list.clients ip) ∧
    (∀ a, (alFind s.ban_list.addresses a).isSome = true →
      alFind sFin.ban_list.addresses a = alFind s.ban_list.addresses a) ∧
    (∀ t, (alFind s.ban_list.tokens t).isSome = true →
      alFind sFin.ban_list.tokens t = alFind s.ban_list.tokens t) ∧
    (∃ (s7 s8 : Banhammer) (mc ma mt : Option BanReason),
      s7.ban_progression ⟨m.client, m.fromAddr, m.token⟩ m.token m.error
        NEAR_GAS_COUNTER now = some ((mc, ma, mt), s8) ∧
      r = mc.toList ++ ma.toList ++ mt.toList ∧
      ((alFind s.ban_list.clients m.client).isSome = true → mc = none) ∧
      ((alFind s.ban_list.addresses m.fromAddr).isSome = true → ma = none) ∧
      (∀ t, m.token = some t → (alFind s.ban_list.tokens t).isSome = true →
        mt = none)) := by
  obtain ⟨s7, s8, mc, ma, mt, hbl, hbp, hmc, hma, hmt, hmtn, hab⟩ :=
    read_input_structure s m now r sFin h
  obtain ⟨hc1, hc2, ha1, ha2, ht1, ht2, hrdec⟩ :=
    applyBans_spec s8 m mc ma mt r sFin hab
  rw [hbl] at hc1 hc2 ha1 ha2 ht1 ht2
  refine ⟨?_, ?_, ?_, ?_⟩
  · intro ip hsome
    by_cases hip : ip = m.client
    · subst hip
      have hmcn : mc = none := by
        cases hmccase : mc with
        | none => rfl
        | some b =>
          have hnone := hmc (by rw [hmccase]; rfl)
          rw [hnone] at hsome
          exact Bool.noConfusion hsome
      rw [hc2 hmcn]
    · exact hc1 ip hip
  · intro a hsome
    by_cases haq : a = m.fromAddr
    · subst haq
      have hman : ma = none := by
        cases hmacase : ma with
        | none => rfl
        | some b =>
          have hnone := hma (by rw [hmacase]; rfl)
          rw [hnone] at hsome
          exact Bool.noConfusion hsome
      rw [ha2 hman]
    · exact ha1 a haq
  · intro t hsome
    cases htok : m.token with
    | none => rw [ht2 (hmtn htok)]
    | some t2 =>
      by_cases htq : t = t2
      · subst htq
        have hmtnone : mt = none := by
          cases hmtcase : mt with
          | none => rfl
          | some b =>
            have hnone := hmt t htok (by rw [hmtcase]; rfl)
            rw [hnone] at hsome
            exact Bool.noConfusion hsome
        rw [ht2 hmtnone]
      · exact ht1 t2 t htok htq
  · refine ⟨s7, s8, mc, ma, mt, hbp, hrdec, ?_, ?_, ?_⟩
    · intro hx
      cases hmccase : mc with
      | none => rfl
      | some b =>
        have hnone := hmc (by rw [hmccase]; rfl)
        rw [hnone] at hx
        exact Bool.noConfusion hx
    · intro hy
      cases hmacase : ma with
      | none => rfl
      | some b =>
        have hnone := hma (by rw [hmacase]; rfl)
        rw [hnone] at hy
        exact Bool.noConfusion hy
    · intro t htok hz
      cases hmtcase : mt with
      | none => rfl
      | some b =>
        have hnone := hmt t htok (by rw [hmtcase]; rfl)
        rw [hnone] at hz
        exact Bool.noConfusion hz

/-- Fixture: a client record already moved to the ban list. -/
def bannedClientUser : UserClient :=
  { UserClient.init with banned := some .TooManyReverts }

/-- Fixture: an address record already moved to the ban list. -/
def bannedAddressUser : UserAddress :=
  { UserAddress.init with banned := some .TooManyReverts }

/-- Fixture: an engine whose ban list already holds client `ip1` and
address `addr1`. -/
def sBanFixture : Banhammer :=
  { Banhammer.new cfgLoose with
    ban_list := ⟨[(ip1, bannedClientUser)], [], [(addr1, bannedAddressUser)]⟩ }

/-- Fixture message with no token and no error. -/
def msgPlain : RelayerMessage := ⟨ip1, addr1, none, none⟩

/-- Fixture: the engine state after `sBanFixture` processes
`msgPlain` (user records recreated, transaction counts bumped, ban
list untouched). -/
def sAfterBan : Banhammer :=
  { sBanFixture with
    user_clients := [(ip1, ⟨[], [addr1], 1, BanProgress.init, none, 0⟩)],
    user_addresses := [(addr1, ⟨[ip1], [], 1, BanProgress.init, none, 0⟩)] }

/-- Witness for C9: processing a message from the already-banned
client `ip1` / address `addr1` returns no ban reasons (the theorem is
applied at the returned list `[]`) and leaves both ban-list entries
unchanged. -/
theorem c9_bans_permanent_witness :
    alFind sAfterBan.ban_list.clients ip1 = alFind sBanFixture.ban_list.clients ip1 ∧
    alFind sAfterBan.ban_list.addresses addr1 =
      alFind sBanFixture.ban_list.addresses addr1 := by
  have h := c9_bans_permanent sBanFixture msgPlain 0 [] sAfterBan (by decide)
  exact ⟨h.1 ip1 (by decide), h.2.1 addr1 (by decide)⟩

/-! ### C10 -/

/-- Claim C10: `tick` is a windowed hard reset with no other effect.
When the elapsed time does not exceed `next_check` the state is
unchanged; otherwise the deadline advances by exactly one configured
timeframe, every tracked user keeps everything except its
`ban_progress`, which is reset to zero/empty, and the ban list, the
leaky-bucket store and the configuration are untouched. -/
theorem c10_tick_frame (s : Banhammer) (elapsed : Nat) :
    (elapsed ≤ s.next_check → s.tick elapsed = s) ∧
    (elapsed > s.next_check →
      (s.tick elapsed).next_check = s.next_check + s.config.timeframe ∧
      (s.tick elapsed).ban_list = s.ban_list ∧
      (s.tick elapsed).leaky_buckets = s.leaky_buckets ∧
      (s.tick elapsed).config = s.config ∧
      (∀ ip, alFind (s.tick elapsed).user_clients ip =
        (alFind s.user_clients ip).map fun u =>
          { u with ban_progress := BanProgress.init }) ∧
      (∀ a, alFind (s.tick elapsed).user_addresses a =
        (alFind s.user_addresses a).map fun u =>
          { u with ban_progress := BanProgress.init }) ∧
      (∀ t, alFind (s.tick elapsed).user_tokens t =
        (alFind s.user_tokens t).map fun u =>
          { u with ban_progress := BanProgress.init })) := by
  constructor
  · intro hle
    unfold Banhammer.tick
    rw [if_neg (not_lt.mpr hle)]
  · intro hgt
    unfold Banhammer.tick
    rw [if_pos hgt]
    exact ⟨rfl, rfl, rfl, rfl,
      fun ip => alFind_map_value s.user_clients
        (fun u => { u with ban_progress := BanProgress.init }) ip,
      fun a => alFind_map_value s.user_addresses
        (fun u => { u with ban_progress := BanProgress.init }) a,
      fun t => alFind_map_value s.user_tokens
        (fun u => { u with ban_progress := BanProgress.init }) t⟩

/-- Fixture: an engine with a dirty `ban_progress`, deadline 10,
timeframe 3600. -/
def c10s : Banhammer :=
  { Banhammer.new cfgLoose with
    next_check := 10,
    user_clients := [(ip1, { UserClient.init with ban_progress := ⟨2, 3, ["r"], 7⟩ })] }

/-- Witness for C10: at elapsed 5 the state is untouched; at elapsed
11 the deadline advances by the timeframe, the tracked client keeps
everything but its (reset) progress, and ban list and buckets are
untouched. -/
theorem c10_tick_frame_witness :
    c10s.tick 5 = c10s ∧
    (c10s.tick 11).next_check = c10s.next_check + c10s.config.timeframe ∧
    alFind (c10s.tick 11).user_clients ip1 =
      (alFind c10s.user_clients ip1).map
        (fun u => { u with ban_progress := BanProgress.init }) ∧
    (c10s.tick 11).ban_list = c10s.ban_list ∧
    (c10s.tick 11).leaky_buckets = c10s.leaky_buckets :=
  ⟨(c10_tick_frame c10s 5).1 (by decide),
   ((c10_tick_frame c10s 11).2 (by decide)).1,
   ((c10_tick_frame c10s 11).2 (by decide)).2.2.2.2.1 ip1,
   ((c10_tick_frame c10s 11).2 (by decide)).2.1,
   ((c10_tick_frame c10s 11).2 (by decide)).2.2.1⟩

end Borealis
